import Mathlib

/-!
Shallow embedding of `src/reporter.py`, a Markdown-to-PDF report CLI.

Strings are modelled as `List Char` (`Str`).  The YAML configuration is a
record whose fields are `Option`-valued: `none` models an absent key, so a
Python subscript lookup `cfg[k]` that raises `KeyError` is modelled by an
`Abort.keyError` outcome, while `dict.get(k, default)` is `Option.getD`.
The side effects of the two commands (directory creation, file copies and
writes, external process invocations, printed lines) are recorded as an
event trace; an abnormal termination (`sys.exit`, an uncaught exception,
or `subprocess.run(check=True)` failing) is an `Abort` value.
-/

namespace Reporter

abbrev Str := List Char

def strOf (s : String) : Str := s.data

/-- Boolean prefix test on character lists (used to locate pattern
occurrences, as Python `str.replace` does). -/
def isPre : Str → Str → Bool
  | [], _ => true
  | _ :: _, [] => false
  | c :: cs, d :: ds => c = d && isPre cs ds

/-- Structural worker for `replaceAll`, recursing on a fuel bound that
dominates the length of the text (so the kernel can evaluate it). -/
def replaceAllF (p v : Str) : Nat → Str → Str
  | _, [] => []
  | 0, l => l
  | n + 1, c :: cs =>
    if isPre p (c :: cs) then v ++ replaceAllF p v n (List.drop (p.length - 1) cs)
    else c :: replaceAllF p v n cs

/-- Python `text.replace(p, v)` for a non-empty pattern `p`: leftmost,
non-overlapping, the inserted `v` is not rescanned. -/
def replaceAll (p v l : Str) : Str := replaceAllF p v l.length l

theorem replaceAllF_congr (p v : Str) : ∀ n m l, l.length ≤ n → l.length ≤ m →
    replaceAllF p v n l = replaceAllF p v m l := by
  intro n
  induction n with
  | zero =>
    intro m l hn _
    have : l = [] := List.length_eq_zero.1 (Nat.le_zero.1 hn)
    subst this
    simp [replaceAllF]
  | succ k ih =>
    intro m l hn hm
    cases l with
    | nil => simp [replaceAllF]
    | cons c cs =>
      cases m with
      | zero => simp at hm
      | succ m' =>
        simp only [replaceAllF]
        have hcs : cs.length ≤ k := by simpa using hn
        have hcs' : cs.length ≤ m' := by simpa using hm
        have hd : (List.drop (p.length - 1) cs).length ≤ k := by
          simp only [List.length_drop]; omega
        have hd' : (List.drop (p.length - 1) cs).length ≤ m' := by
          simp only [List.length_drop]; omega
        rw [ih m' cs hcs hcs', ih m' (List.drop (p.length - 1) cs) hd hd']

theorem replaceAll_cons_eq (p v : Str) (c : Char) (cs : Str) :
    replaceAll p v (c :: cs) =
      if isPre p (c :: cs) then v ++ replaceAll p v (List.drop (p.length - 1) cs)
      else c :: replaceAll p v cs := by
  show replaceAllF p v (c :: cs).length (c :: cs) = _
  simp only [List.length_cons, replaceAllF]
  rw [replaceAllF_congr p v cs.length (List.drop (p.length - 1) cs).length
        (List.drop (p.length - 1) cs) (by simp only [List.length_drop]; omega) (Nat.le_refl _)]
  rfl

/-- Does `p` occur as a contiguous substring of the text? -/
def containsSub (p : Str) : Str → Bool
  | [] => isPre p []
  | c :: cs => isPre p (c :: cs) || containsSub p cs

theorem isPre_iff (p : Str) : ∀ l, isPre p l = true ↔ ∃ t, l = p ++ t := by
  induction p with
  | nil => intro l; simp [isPre]
  | cons c cs ih =>
    intro l
    cases l with
    | nil => simp [isPre]
    | cons d ds =>
      simp only [isPre, Bool.and_eq_true, decide_eq_true_eq, ih ds, List.cons_append,
        List.cons.injEq]
      constructor
      · rintro ⟨rfl, t, rfl⟩; exact ⟨t, rfl, rfl⟩
      · rintro ⟨t, rfl, rfl⟩; exact ⟨rfl, t, rfl⟩

theorem isPre_length {p l : Str} (h : isPre p l = true) : p.length ≤ l.length := by
  rcases (isPre_iff p l).1 h with ⟨t, rfl⟩
  simp

theorem isPre_append_ext {p l : Str} (r : Str) (h : isPre p l = true) :
    isPre p (l ++ r) = true := by
  rcases (isPre_iff p l).1 h with ⟨t, rfl⟩
  exact (isPre_iff p _).2 ⟨t ++ r, by simp⟩

theorem isPre_chop_nl {p : Str} (hnl : '\n' ∉ p) :
    ∀ a b, isPre p (a ++ '\n' :: b) = true → isPre p a = true := by
  induction p with
  | nil => intro a b _; rfl
  | cons c cs ih =>
    intro a b h
    cases a with
    | nil =>
      exfalso
      simp only [List.nil_append, isPre, Bool.and_eq_true, decide_eq_true_eq] at h
      exact hnl (h.1 ▸ List.mem_cons_self c cs)
    | cons d ds =>
      simp only [List.cons_append, isPre, Bool.and_eq_true, decide_eq_true_eq] at h ⊢
      refine ⟨h.1, ?_⟩
      have hcs : '\n' ∉ cs := fun hm => hnl (List.mem_cons_of_mem c hm)
      cases hp : cs with
      | nil => rfl
      | cons x xs => exact hp ▸ ih (hp ▸ hcs) ds b (hp ▸ h.2)

theorem drop_append_le {α : Type} : ∀ (n : Nat) (l r : List α), n ≤ l.length →
    List.drop n (l ++ r) = List.drop n l ++ r := by
  intro n
  induction n with
  | zero => intro l r _; simp
  | succ m ih =>
    intro l r h
    cases l with
    | nil => simp at h
    | cons c cs =>
      simp only [List.cons_append, List.drop_succ_cons]
      exact ih cs r (by simpa using h)

theorem replaceAll_nil (p v : Str) : replaceAll p v [] = [] := rfl

theorem replaceAll_of_not_contains {p : Str} (v : Str) :
    ∀ l, containsSub p l = false → replaceAll p v l = l := by
  intro l
  induction l with
  | nil => intro _; exact replaceAll_nil p v
  | cons c cs ih =>
    intro h
    simp only [containsSub, Bool.or_eq_false_iff] at h
    simp [replaceAll_cons_eq, h.1, ih h.2]

/-- Replacing a pattern by itself is the identity. -/
theorem replaceAll_self (p : Str) (hp : p ≠ []) : ∀ l, replaceAll p p l = l := by
  have main : ∀ (n : Nat) (l : Str), l.length ≤ n → replaceAll p p l = l := by
    intro n
    induction n with
    | zero =>
      intro l h
      have : l = [] := List.length_eq_zero.1 (Nat.le_zero.1 h)
      subst this
      exact replaceAll_nil p p
    | succ m ih =>
      intro l h
      cases l with
      | nil => exact replaceAll_nil p p
      | cons c cs =>
        by_cases hpre : isPre p (c :: cs) = true
        · rcases (isPre_iff p (c :: cs)).1 hpre with ⟨t, ht⟩
          cases p with
          | nil => exact absurd rfl hp
          | cons x xs =>
            simp only [List.cons_append, List.cons.injEq] at ht
            have hcs : cs = xs ++ t := ht.2
            have hdrop : List.drop ((x :: xs).length - 1) cs = t := by
              rw [hcs]
              simp
            rw [replaceAll_cons_eq, if_pos hpre, hdrop]
            have htlen : t.length ≤ m := by
              have h1 : cs.length ≤ m := by simpa using h
              rw [hcs] at h1
              simp only [List.length_append] at h1
              omega
            rw [ih t htlen, ht.1, hcs, List.cons_append]
        · rw [replaceAll_cons_eq, if_neg hpre]
          have : cs.length ≤ m := by simpa using h
          rw [ih cs this]
  exact fun l => main l.length l (Nat.le_refl _)

/-- Split a text into its lines at newline characters (the template
lines the spec speaks of; `splitLines "a\nb" = ["a", "b"]`). -/
def splitLines : Str → List Str
  | [] => [[]]
  | c :: cs =>
    if c = '\n' then [] :: splitLines cs
    else (c :: (splitLines cs).headD []) :: (splitLines cs).tail

/-- Inverse of `splitLines`: interpose newlines between the lines. -/
def joinLines : List Str → Str
  | [] => []
  | [l] => l
  | l :: ls => l ++ '\n' :: joinLines ls

/-- Concatenation of the images of a list under a list-valued function. -/
def concatMapL {α β : Type} (f : α → List β) : List α → List β
  | [] => []
  | m :: ms => f m ++ concatMapL f ms

theorem splitLines_ne_nil : ∀ l, splitLines l ≠ [] := by
  intro l
  cases l with
  | nil => simp [splitLines]
  | cons c cs =>
    simp only [splitLines]
    split <;> simp

theorem splitLines_append_nl : ∀ a x, splitLines (a ++ '\n' :: x) = splitLines a ++ splitLines x := by
  intro a
  induction a with
  | nil => intro x; simp [splitLines]
  | cons c a' ih =>
    intro x
    by_cases hc : c = '\n'
    · simp [splitLines, hc, ih x]
    · rcases hsa : splitLines a' with _ | ⟨m, ms⟩
      · exact absurd hsa (splitLines_ne_nil a')
      · simp [splitLines, hc, ih x, hsa]

theorem joinLines_splitLines : ∀ t, joinLines (splitLines t) = t := by
  intro t
  induction t with
  | nil => simp [splitLines, joinLines]
  | cons c cs ih =>
    rcases hscs : splitLines cs with _ | ⟨m, ms⟩
    · exact absurd hscs (splitLines_ne_nil cs)
    · rw [hscs] at ih
      by_cases hc : c = '\n'
      · simp [splitLines, hc, hscs, joinLines, ih]
      · cases ms with
        | nil => simp_all [splitLines, hc, hscs, joinLines]
        | cons m2 ms' => simp_all [splitLines, hc, hscs, joinLines]

theorem splitLines_joinLines_flat :
    ∀ ms : List Str, ms ≠ [] → splitLines (joinLines ms) = concatMapL splitLines ms := by
  intro ms
  induction ms with
  | nil => intro h; exact absurd rfl h
  | cons m ms ih =>
    intro _
    cases ms with
    | nil => simp [joinLines, concatMapL]
    | cons m2 ms' =>
      rw [show joinLines (m :: m2 :: ms') = m ++ '\n' :: joinLines (m2 :: ms') from rfl,
        splitLines_append_nl, ih (by simp)]
      rfl

theorem mem_splitLines_nl_free : ∀ (t l : Str), l ∈ splitLines t → '\n' ∉ l := by
  intro t
  induction t with
  | nil =>
    intro l hl
    simp only [splitLines, List.mem_singleton] at hl
    simp [hl]
  | cons c cs ih =>
    intro l hl
    by_cases hc : c = '\n'
    · simp only [splitLines, if_pos hc, List.mem_cons] at hl
      rcases hl with rfl | hl
      · simp
      · exact ih l hl
    · rcases hscs : splitLines cs with _ | ⟨m, ms⟩
      · exact absurd hscs (splitLines_ne_nil cs)
      · rw [splitLines, if_neg hc, hscs] at hl
        simp only [List.headD_cons, List.tail_cons, List.mem_cons] at hl
        rcases hl with rfl | hl
        · intro hmem
          rcases List.mem_cons.1 hmem with h | h
          · exact hc h.symm
          · exact ih m (hscs ▸ List.mem_cons_self m ms) h
        · exact ih l (hscs ▸ List.mem_cons_of_mem m hl)

theorem splitLines_nl_free {l : Str} (h : '\n' ∉ l) : splitLines l = [l] := by
  induction l with
  | nil => rfl
  | cons c cs ih =>
    have hc : ¬ c = '\n' := fun hh => h (hh ▸ List.mem_cons_self c cs)
    have hcs : '\n' ∉ cs := fun hm => h (List.mem_cons_of_mem c hm)
    rw [splitLines, if_neg hc, ih hcs]
    rfl

theorem mem_concatMapL {α β : Type} {f : α → List β} {x : β} {m : α} :
    ∀ {ms : List α}, x ∈ f m → m ∈ ms → x ∈ concatMapL f ms := by
  intro ms
  induction ms with
  | nil => intro _ h; exact absurd h (List.not_mem_nil m)
  | cons a as ih =>
    intro hx hm
    rcases List.mem_cons.1 hm with rfl | hm
    · exact List.mem_append_left _ hx
    · exact List.mem_append_right _ (ih hx hm)

theorem concatMapL_map {α β γ : Type} (g : β → List γ) (f : α → β) :
    ∀ ms : List α, concatMapL g (List.map f ms) = concatMapL (fun m => g (f m)) ms := by
  intro ms
  induction ms with
  | nil => rfl
  | cons a as ih => simp [concatMapL, ih]

theorem concatMapL_append {α β : Type} (g : α → List β) :
    ∀ ms ns : List α, concatMapL g (ms ++ ns) = concatMapL g ms ++ concatMapL g ns := by
  intro ms ns
  induction ms with
  | nil => rfl
  | cons a as ih => simp [concatMapL, ih]

theorem concatMapL_concatMapL {α β γ : Type} (g : β → List γ) (h : α → List β) :
    ∀ ms : List α, concatMapL g (concatMapL h ms) = concatMapL (fun m => concatMapL g (h m)) ms := by
  intro ms
  induction ms with
  | nil => rfl
  | cons a as ih => simp [concatMapL, concatMapL_append, ih]

theorem replaceAll_nl_cons {p : Str} (v : Str) (hp : p ≠ []) (hnl : '\n' ∉ p) (b : Str) :
    replaceAll p v ('\n' :: b) = '\n' :: replaceAll p v b := by
  have hpre : isPre p ('\n' :: b) = false := by
    cases hxp : isPre p ('\n' :: b)
    · rfl
    · exfalso
      rcases (isPre_iff p ('\n' :: b)).1 hxp with ⟨t, ht⟩
      cases p with
      | nil => exact hp rfl
      | cons x xs =>
        simp only [List.cons_append, List.cons.injEq] at ht
        exact hnl (ht.1 ▸ List.mem_cons_self x xs)
  rw [replaceAll_cons_eq, if_neg (by simp [hpre])]

/-- A `replaceAll` whose pattern contains no newline acts independently on
the two sides of a newline: no match crosses the line boundary. -/
theorem replaceAll_append_nl {p : Str} (v : Str) (hp : p ≠ []) (hnl : '\n' ∉ p) :
    ∀ a b, replaceAll p v (a ++ '\n' :: b) = replaceAll p v a ++ '\n' :: replaceAll p v b := by
  have main : ∀ (n : Nat) (a b : Str), a.length ≤ n →
      replaceAll p v (a ++ '\n' :: b) = replaceAll p v a ++ '\n' :: replaceAll p v b := by
    intro n
    induction n with
    | zero =>
      intro a b h
      have : a = [] := List.length_eq_zero.1 (Nat.le_zero.1 h)
      subst this
      rw [List.nil_append, replaceAll_nl_cons v hp hnl, replaceAll_nil, List.nil_append]
    | succ m ih =>
      intro a b h
      cases a with
      | nil => rw [List.nil_append, replaceAll_nl_cons v hp hnl, replaceAll_nil, List.nil_append]
      | cons c a' =>
        by_cases hpre : isPre p (c :: a') = true
        · have hplong : isPre p (c :: (a' ++ '\n' :: b)) = true := by
            have := isPre_append_ext ('\n' :: b) hpre
            simpa using this
          have hlen : p.length ≤ a'.length + 1 := by simpa using isPre_length hpre
          rw [List.cons_append, replaceAll_cons_eq, if_pos hplong,
            drop_append_le (p.length - 1) a' ('\n' :: b) (by omega),
            ih (List.drop (p.length - 1) a') b
              (by simp only [List.length_cons] at h; simp only [List.length_drop]; omega),
            replaceAll_cons_eq, if_pos hpre, List.append_assoc]
        · have hplong : ¬ isPre p (c :: (a' ++ '\n' :: b)) = true := by
            intro hcontra
            exact hpre (isPre_chop_nl hnl (c :: a') b (by simpa using hcontra))
          rw [List.cons_append, replaceAll_cons_eq, if_neg hplong,
            ih a' b (by simpa using h), replaceAll_cons_eq, if_neg hpre, List.cons_append]
  exact fun a b => main a.length a b (Nat.le_refl _)

theorem replaceAll_joinLines {p : Str} (v : Str) (hp : p ≠ []) (hnl : '\n' ∉ p) :
    ∀ ms : List Str, ms ≠ [] →
      replaceAll p v (joinLines ms) = joinLines (List.map (replaceAll p v) ms) := by
  intro ms
  induction ms with
  | nil => intro h; exact absurd rfl h
  | cons m ms ih =>
    intro _
    cases ms with
    | nil => simp [joinLines]
    | cons m2 ms' =>
      rw [show joinLines (m :: m2 :: ms') = m ++ '\n' :: joinLines (m2 :: ms') from rfl,
        replaceAll_append_nl v hp hnl, ih (by simp), List.map_cons]
      rfl

/-- Since no match crosses a newline, the lines of the replaced text are
the concatenation, over the original lines, of the lines of each
replaced line. -/
theorem splitLines_replaceAll {p : Str} (v : Str) (hp : p ≠ []) (hnl : '\n' ∉ p) (t : Str) :
    splitLines (replaceAll p v t) =
      concatMapL (fun l => splitLines (replaceAll p v l)) (splitLines t) := by
  conv_lhs => rw [← joinLines_splitLines t]
  rw [replaceAll_joinLines v hp hnl _ (splitLines_ne_nil t),
    splitLines_joinLines_flat _ (by simpa using splitLines_ne_nil t),
    concatMapL_map]

/-- Replacing the full pattern. -/
theorem replaceAll_whole (p v : Str) (hp : p ≠ []) : replaceAll p v p = v := by
  cases p with
  | nil => exact absurd rfl hp
  | cons x xs =>
    have hpre : isPre (x :: xs) (x :: xs) = true :=
      (isPre_iff _ _).2 ⟨[], by simp⟩
    rw [replaceAll_cons_eq, if_pos hpre]
    have : List.drop ((x :: xs).length - 1) xs = [] := by simp
    rw [this, replaceAll_nil, List.append_nil]

/-! ## Path helpers (the fragment of `pathlib` the program uses)

The embedding assumes POSIX paths and an already-normalised directory
argument (no trailing slash), so `Path(d) / n` renders as `d ++ "/" ++ n`. -/

/-- Rendering of `Path(d) / n` as a string. -/
def pathJoin (d n : Str) : Str := d ++ '/' :: n

/-- Basename `Path(p).name`: the component after the last slash. -/
def pathName (p : Str) : Str := (p.reverse.takeWhile (fun c => !(c = '/'))).reverse

/-- Drop the final `.`-extension of a bare file name, with the exact
`pathlib` rule: the name is cut at its last dot only when that dot is
neither the first nor the last character (`"a.tar.gz" ↦ "a.tar"`,
`".bashrc" ↦ ".bashrc"`, `"name." ↦ "name."`, `"name" ↦ "name"`). -/
def dropLastExt (n : Str) : Str :=
  match n.reverse with
  | [] => n
  | c :: _ =>
    if c = '.' then n
    else
      match n.reverse.dropWhile (fun d => !(d = '.')) with
      | [] => n
      | _ :: rest => if rest = [] then n else rest.reverse

/-- Stem `Path(p).stem`: final component without its last extension. -/
def stemOf (p : Str) : Str := dropLastExt (pathName p)

/-- Decimal rendering `str(n)` for the `toc_depth` number. -/
def natToStr (n : Nat) : Str := (Nat.repr n).data

/-! ## Data model: the YAML configuration

Fields are `Option`-valued; `none` models an absent key.  Subscript
lookups (`cfg[k]`) on `none` abort with `KeyError`, `dict.get` lookups
take the Python default instead. -/

structure MetaSection where
  title : Option Str
  author : Option Str
deriving DecidableEq

structure OutputSection where
  pdf_name : Option Str
  archive : Option Bool
deriving DecidableEq

structure PandocSection where
  template : Option Str
  highlight_style : Option Str
  top_level_division : Option Str
  toc : Option Bool
  toc_depth : Option Nat
  number_sections : Option Bool
deriving DecidableEq

structure PathsSection where
  resource_path : Option Str
deriving DecidableEq

structure Config where
  metadata : Option MetaSection
  output : Option OutputSection
  pandoc : Option PandocSection
  paths : Option PathsSection
deriving DecidableEq

/-! ## Effects

Each command run is summarised as the list of side effects it performs,
in order, together with an optional abnormal termination. -/

inductive Event where
  | print (msg : Str)
  | mkdirParents (dir : Str)
  | copyFile (src dst : Str)
  | writeFile (path content : Str)
  | execProc (cmd : List Str) (exitCode : Nat)
deriving DecidableEq

/-- Abnormal termination of the process: an explicit `sys.exit`, an
uncaught `KeyError` from a missing config key, a `CalledProcessError`
from `subprocess.run(check=True)`, or a `FileNotFoundError` because the
external executable is unavailable. -/
inductive Abort where
  | sysExit (code : Nat)
  | keyError (key : Str)
  | calledProcessError (cmd : List Str) (code : Nat)
  | fileNotFound (cmd : List Str)
deriving DecidableEq

/-- Process exit status produced by each abnormal termination (an
uncaught Python exception terminates the interpreter with status 1). -/
def Abort.exitCode : Abort → Nat
  | .sysExit n => n
  | .keyError _ => 1
  | .calledProcessError _ _ => 1
  | .fileNotFound _ => 1

/-- Is the event a file-system mutation (anything besides a print)? -/
def Event.isFsWrite : Event → Bool
  | .print _ => false
  | _ => true

/-- The command lines of all external process invocations in a trace. -/
def execsOf (tr : List Event) : List (List Str) :=
  tr.filterMap fun e =>
    match e with
    | .execProc c _ => some c
    | _ => none

/-- Does the trace contain a printed line starting with the given text? -/
def hasPrintPre (pre : Str) (tr : List Event) : Bool :=
  tr.any fun e =>
    match e with
    | .print s => isPre pre s
    | _ => false

/-! ## The program (`src/reporter.py`) -/

def titleKey : Str := strOf "title"
def authorKey : Str := strOf "author"
def dateKey : Str := strOf "date"
def metadataKey : Str := strOf "metadata"
def outputKey : Str := strOf "output"
def pdfNameKey : Str := strOf "pdf_name"
def archiveKey : Str := strOf "archive"
def pandocKey : Str := strOf "pandoc"
def templateKey : Str := strOf "template"
def highlightStyleKey : Str := strOf "highlight_style"
def pathsKey : Str := strOf "paths"
def resourcePathKey : Str := strOf "resource_path"
def topLevelDivisionKey : Str := strOf "top_level_division"

/-- The literal placeholder searched for: `key: ""`. -/
def placeholderPat (key : Str) : Str := key ++ strOf ": \"\""

/-- The replacement written for a placeholder: `key: "value"`. -/
def placeholderVal (key value : Str) : Str := key ++ strOf ": \"" ++ value ++ strOf "\""

/-- The replacement loop of `replace_metadata` (lines 36-37): the three
`text.replace` calls in dictionary insertion order title, author, date.
`today` stands for `str(date.today())`. -/
def replaceMetadataText (title author today text : Str) : Str :=
  replaceAll (placeholderPat dateKey) (placeholderVal dateKey today)
    (replaceAll (placeholderPat authorKey) (placeholderVal authorKey author)
      (replaceAll (placeholderPat titleKey) (placeholderVal titleKey title) text))

/-- Function `replace_metadata` (lines 27-39) up to its file reads and
writes: builds the
replacement values (`cfg["metadata"]` raises `KeyError` when the section
is absent; `.get` defaults the missing title/author to `""`) and returns
the rewritten text. -/
def replace_metadata (cfg : Config) (today text : Str) : Except Abort Str :=
  match cfg.metadata with
  | none => .error (.keyError metadataKey)
  | some md =>
    .ok (replaceMetadataText (md.title.getD []) (md.author.getD []) today text)

/-- Function `md5sum` (lines 41-42): `md5hex` abstracts `hashlib.md5(..).hexdigest()`
and `readBytes` the file system at the moment of the read. -/
def md5sum (md5hex readBytes : Str → Str) (file : Str) : Str := md5hex (readBytes file)

/-- Function `load_config` (lines 14-20): parse result when the file exists, else
a printed message and `sys.exit(1)`. -/
def load_config (path : Str) (configExists : Bool) (parsed : Config) :
    List Event × Except Abort Config :=
  if configExists then ([], .ok parsed)
  else ([.print (strOf "[!] Config file not found: " ++ path)], .error (.sysExit 1))

/-- Command `init_cmd` (lines 46-61).  `templateContent` is the text of the
template file on disk, `today` is `str(date.today())`. -/
def init_cmd (templatePath : Str) (templateExists : Bool) (templateContent outputDir : Str)
    (cfg : Config) (today : Str) : List Event × Option Abort :=
  let ev0 : List Event := [.mkdirParents outputDir]
  if templateExists = false then
    (ev0 ++ [.print (strOf "[!] Template not found: " ++ templatePath)], some (.sysExit 1))
  else
    let target := pathJoin outputDir (pathName templatePath)
    let ev1 := ev0 ++ [.copyFile templatePath target]
    match replace_metadata cfg today templateContent with
    | .error a => (ev1, some a)
    | .ok content =>
      (ev1 ++ [.writeFile target content,
        .print (strOf "[+] Template copied to " ++ target),
        .print (strOf "[+] Edit the Markdown file, then run `generate`")], none)

/-- The command-line assembly of `generate_cmd` (lines 67-87): resolves
the config keys in the evaluation order of the Python source and builds
the `pandoc` invocation; also returns the pdf path and the `output`
section for the later steps. -/
def pandocPlan (inputPath outputDir : Str) (cfg : Config) :
    Except Abort (List Str × Str × OutputSection) :=
  match cfg.output with
  | none => .error (.keyError outputKey)
  | some o =>
    match o.pdf_name with
    | none => .error (.keyError pdfNameKey)
    | some n =>
      let pdf := pathJoin outputDir n
      match cfg.pandoc with
      | none => .error (.keyError pandocKey)
      | some pc =>
        match pc.template with
        | none => .error (.keyError templateKey)
        | some tpl =>
          match pc.highlight_style with
          | none => .error (.keyError highlightStyleKey)
          | some hs =>
            match cfg.paths with
            | none => .error (.keyError pathsKey)
            | some pa =>
              match pa.resource_path with
              | none => .error (.keyError resourcePathKey)
              | some rp =>
                match pc.top_level_division with
                | none => .error (.keyError topLevelDivisionKey)
                | some tld =>
                  let base := [strOf "pandoc", inputPath, strOf "-o", pdf,
                    strOf "--from", strOf "markdown+yaml_metadata_block+raw_html",
                    strOf "--template", tpl,
                    strOf "--highlight-style", hs,
                    strOf "--resource-path", rp,
                    strOf "--top-level-division", tld]
                  let cmd1 := if pc.toc.getD false then
                      base ++ [strOf "--table-of-contents", strOf "--toc-depth",
                        natToStr (pc.toc_depth.getD 6)]
                    else base
                  let cmd2 := if pc.number_sections.getD false then
                      cmd1 ++ [strOf "--number-sections"]
                    else cmd1
                  .ok (cmd2, pdf, o)

/-- Command `generate_cmd` (lines 63-100).  `ex` is the oracle for external
process invocations (`none`: the executable is unavailable and
`subprocess.run` raises `FileNotFoundError`; `some k`: the process ran
and exited with status `k`, which `check=True` turns into
`CalledProcessError` when non-zero). -/
def generate_cmd (inputPath outputDir : Str) (cfg : Config)
    (ex : List Str → Option Nat) (readBytes md5hex : Str → Str) : List Event × Option Abort :=
  let ev0 : List Event := [.mkdirParents outputDir]
  match pandocPlan inputPath outputDir cfg with
  | .error a => (ev0, some a)
  | .ok (cmd, pdf, o) =>
    let ev1 := ev0 ++ [.print (strOf "[+] Generating PDF...")]
    match ex cmd with
    | none => (ev1, some (.fileNotFound cmd))
    | some k =>
      let ev2 := ev1 ++ [.execProc cmd k]
      if k = 0 then
        let ev3 := ev2 ++ [.print (strOf "[+] PDF generated: " ++ pdf)]
        if o.archive.getD false then
          let archive := pathJoin outputDir (stemOf pdf ++ strOf ".7z")
          let acmd := [strOf "7z", strOf "a", archive, pdf]
          let ev4 := ev3 ++ [.print (strOf "[+] Creating archive...")]
          match ex acmd with
          | none => (ev4, some (.fileNotFound acmd))
          | some j =>
            let ev5 := ev4 ++ [.execProc acmd j]
            if j = 0 then
              let checksum := md5sum md5hex readBytes archive
              (ev5 ++ [.print (strOf "[+] Archive: " ++ archive),
                .print (strOf "[+] MD5: " ++ checksum)], none)
            else (ev5, some (.calledProcessError acmd j))
        else (ev3, none)
      else (ev2, some (.calledProcessError cmd k))

/-! ## Structure of the metadata substitution -/

theorem placeholderPat_titleKey_ne_nil : placeholderPat titleKey ≠ [] := by decide

theorem placeholderPat_authorKey_ne_nil : placeholderPat authorKey ≠ [] := by decide

theorem placeholderPat_dateKey_ne_nil : placeholderPat dateKey ≠ [] := by decide

theorem nl_not_mem_placeholderPat_titleKey : '\n' ∉ placeholderPat titleKey := by decide

theorem nl_not_mem_placeholderPat_authorKey : '\n' ∉ placeholderPat authorKey := by decide

theorem nl_not_mem_placeholderPat_dateKey : '\n' ∉ placeholderPat dateKey := by decide

/-- The lines of the substituted text are the concatenation, over the
template lines, of the lines of each substituted line: the substitution
never merges lines and acts on each line separately. -/
theorem splitLines_replaceMetadataText (title author today text : Str) :
    splitLines (replaceMetadataText title author today text) =
      concatMapL (fun l => splitLines (replaceMetadataText title author today l))
        (splitLines text) := by
  unfold replaceMetadataText
  rw [splitLines_replaceAll _ placeholderPat_dateKey_ne_nil nl_not_mem_placeholderPat_dateKey,
    splitLines_replaceAll _ placeholderPat_authorKey_ne_nil nl_not_mem_placeholderPat_authorKey,
    splitLines_replaceAll _ placeholderPat_titleKey_ne_nil nl_not_mem_placeholderPat_titleKey,
    concatMapL_concatMapL, concatMapL_concatMapL]
  congr 1
  funext l
  rw [splitLines_replaceAll _ placeholderPat_dateKey_ne_nil nl_not_mem_placeholderPat_dateKey,
    splitLines_replaceAll _ placeholderPat_authorKey_ne_nil nl_not_mem_placeholderPat_authorKey,
    concatMapL_concatMapL]

/-- A line containing none of the three placeholder patterns is fixed by
the substitution. -/
theorem replaceMetadataText_pattern_free (title author today : Str) {l : Str}
    (h1 : containsSub (placeholderPat titleKey) l = false)
    (h2 : containsSub (placeholderPat authorKey) l = false)
    (h3 : containsSub (placeholderPat dateKey) l = false) :
    replaceMetadataText title author today l = l := by
  unfold replaceMetadataText
  rw [replaceAll_of_not_contains _ l h1, replaceAll_of_not_contains _ l h2,
    replaceAll_of_not_contains _ l h3]

/-- A pattern-free line of the template reappears verbatim as a line of
the substituted text. -/
theorem mem_splitLines_replaceMetadataText (title author today text : Str) {l : Str}
    (hmem : l ∈ splitLines text)
    (h1 : containsSub (placeholderPat titleKey) l = false)
    (h2 : containsSub (placeholderPat authorKey) l = false)
    (h3 : containsSub (placeholderPat dateKey) l = false) :
    l ∈ splitLines (replaceMetadataText title author today text) := by
  rw [splitLines_replaceMetadataText]
  refine mem_concatMapL ?_ hmem
  rw [replaceMetadataText_pattern_free title author today h1 h2 h3,
    splitLines_nl_free (mem_splitLines_nl_free text l hmem)]
  exact List.mem_singleton_self l

/-- Where a placeholder line comes from: the substitution sends the full
pattern line to the full replacement line, provided the earlier
replacement steps leave the pattern alone and the later steps do not
match inside the written value. -/
theorem replaceMetadataText_title_line (title author today : Str)
    (ha : containsSub (placeholderPat authorKey) (placeholderVal titleKey title) = false)
    (hd : containsSub (placeholderPat dateKey) (placeholderVal titleKey title) = false) :
    replaceMetadataText title author today (placeholderPat titleKey) =
      placeholderVal titleKey title := by
  unfold replaceMetadataText
  rw [replaceAll_whole _ _ placeholderPat_titleKey_ne_nil,
    replaceAll_of_not_contains _ _ ha, replaceAll_of_not_contains _ _ hd]

theorem replaceMetadataText_author_line (title author today : Str)
    (hd : containsSub (placeholderPat dateKey) (placeholderVal authorKey author) = false) :
    replaceMetadataText title author today (placeholderPat authorKey) =
      placeholderVal authorKey author := by
  unfold replaceMetadataText
  rw [replaceAll_of_not_contains _ _
      (show containsSub (placeholderPat titleKey) (placeholderPat authorKey) = false by decide),
    replaceAll_whole _ _ placeholderPat_authorKey_ne_nil,
    replaceAll_of_not_contains _ _ hd]

theorem replaceMetadataText_date_line (title author today : Str) :
    replaceMetadataText title author today (placeholderPat dateKey) =
      placeholderVal dateKey today := by
  unfold replaceMetadataText
  rw [replaceAll_of_not_contains _ _
      (show containsSub (placeholderPat titleKey) (placeholderPat dateKey) = false by decide),
    replaceAll_of_not_contains _ _
      (show containsSub (placeholderPat authorKey) (placeholderPat dateKey) = false by decide),
    replaceAll_whole _ _ placeholderPat_dateKey_ne_nil]

/-- Newline-freeness of a replacement line whose value is newline-free. -/
theorem nl_not_mem_placeholderVal {key value : Str} (hk : '\n' ∉ key) (hv : '\n' ∉ value) :
    '\n' ∉ placeholderVal key value := by
  unfold placeholderVal
  intro hmem
  rcases List.mem_append.1 hmem with h | h
  · rcases List.mem_append.1 h with h2 | h2
    · rcases List.mem_append.1 h2 with h3 | h3
      · exact hk h3
      · simp [strOf] at h3
    · exact hv h2
  · simp [strOf] at h

/-! ## Shape of a successful plan and the branches of `generate_cmd` -/

/-- A successful plan pins down the `output` section, the pdf path
`<output_dir>/<pdf_name>`, and the first four command words
`pandoc <input> -o <pdf>`. -/
theorem pandocPlan_shape (inputPath outputDir : Str) (cfg : Config) (cmd : List Str)
    (pdf : Str) (o : OutputSection)
    (hplan : pandocPlan inputPath outputDir cfg = .ok (cmd, pdf, o)) :
    cfg.output = some o ∧ (∃ n, o.pdf_name = some n ∧ pdf = pathJoin outputDir n) ∧
      cmd.take 4 = [strOf "pandoc", inputPath, strOf "-o", pdf] := by
  cases ho : cfg.output with
  | none => simp [pandocPlan, ho] at hplan
  | some o' =>
    cases hn : o'.pdf_name with
    | none => simp [pandocPlan, ho, hn] at hplan
    | some n =>
      cases hpc : cfg.pandoc with
      | none => simp [pandocPlan, ho, hn, hpc] at hplan
      | some pc =>
        cases htpl : pc.template with
        | none => simp [pandocPlan, ho, hn, hpc, htpl] at hplan
        | some tpl =>
          cases hhs : pc.highlight_style with
          | none => simp [pandocPlan, ho, hn, hpc, htpl, hhs] at hplan
          | some hs =>
            cases hpa : cfg.paths with
            | none => simp [pandocPlan, ho, hn, hpc, htpl, hhs, hpa] at hplan
            | some pa =>
              cases hrp : pa.resource_path with
              | none => simp [pandocPlan, ho, hn, hpc, htpl, hhs, hpa, hrp] at hplan
              | some rp =>
                cases htld : pc.top_level_division with
                | none => simp [pandocPlan, ho, hn, hpc, htpl, hhs, hpa, hrp, htld] at hplan
                | some tld =>
                  simp only [pandocPlan, ho, hn, hpc, htpl, hhs, hpa, hrp, htld,
                    Except.ok.injEq, Prod.mk.injEq] at hplan
                  obtain ⟨hcmd, hpdf, ho2⟩ := hplan
                  subst ho2
                  refine ⟨rfl, ⟨n, hn, hpdf.symm⟩, ?_⟩
                  rw [← hcmd, ← hpdf]
                  by_cases ht : pc.toc.getD false = true <;>
                    by_cases hns : pc.number_sections.getD false = true <;>
                      simp [ht, hns]

/-- Trace of `generate_cmd` when the converter executable is unavailable. -/
theorem generate_cmd_unavailable (inputPath outputDir : Str) (cfg : Config)
    (ex : List Str → Option Nat) (rb mh : Str → Str) (cmd : List Str) (pdf : Str)
    (o : OutputSection) (hplan : pandocPlan inputPath outputDir cfg = .ok (cmd, pdf, o))
    (hex : ex cmd = none) :
    generate_cmd inputPath outputDir cfg ex rb mh =
      ([.mkdirParents outputDir, .print (strOf "[+] Generating PDF...")],
        some (.fileNotFound cmd)) := by
  simp [generate_cmd, hplan, hex]

/-- Trace of `generate_cmd` when the converter process exits non-zero. -/
theorem generate_cmd_converter_fails (inputPath outputDir : Str) (cfg : Config)
    (ex : List Str → Option Nat) (rb mh : Str → Str) (cmd : List Str) (pdf : Str)
    (o : OutputSection) (hplan : pandocPlan inputPath outputDir cfg = .ok (cmd, pdf, o))
    (k : Nat) (hex : ex cmd = some k) (hnz : k ≠ 0) :
    generate_cmd inputPath outputDir cfg ex rb mh =
      ([.mkdirParents outputDir, .print (strOf "[+] Generating PDF..."), .execProc cmd k],
        some (.calledProcessError cmd k)) := by
  simp [generate_cmd, hplan, hex, hnz]

/-- Trace of `generate_cmd` when the converter succeeds, archiving is on, and the
archiver runs with exit status `j`. -/
theorem generate_cmd_archive_run (inputPath outputDir : Str) (cfg : Config)
    (ex : List Str → Option Nat) (rb mh : Str → Str) (cmd : List Str) (pdf : Str)
    (o : OutputSection) (hplan : pandocPlan inputPath outputDir cfg = .ok (cmd, pdf, o))
    (hex : ex cmd = some 0) (harch : o.archive = some true) (j : Nat)
    (h7z : ex [strOf "7z", strOf "a", pathJoin outputDir (stemOf pdf ++ strOf ".7z"), pdf]
      = some j) :
    generate_cmd inputPath outputDir cfg ex rb mh =
      (if j = 0 then
        ([.mkdirParents outputDir, .print (strOf "[+] Generating PDF..."), .execProc cmd 0,
          .print (strOf "[+] PDF generated: " ++ pdf),
          .print (strOf "[+] Creating archive..."),
          .execProc [strOf "7z", strOf "a",
            pathJoin outputDir (stemOf pdf ++ strOf ".7z"), pdf] 0,
          .print (strOf "[+] Archive: " ++ pathJoin outputDir (stemOf pdf ++ strOf ".7z")),
          .print (strOf "[+] MD5: "
            ++ md5sum mh rb (pathJoin outputDir (stemOf pdf ++ strOf ".7z")))], none)
      else
        ([.mkdirParents outputDir, .print (strOf "[+] Generating PDF..."), .execProc cmd 0,
          .print (strOf "[+] PDF generated: " ++ pdf),
          .print (strOf "[+] Creating archive..."),
          .execProc [strOf "7z", strOf "a",
            pathJoin outputDir (stemOf pdf ++ strOf ".7z"), pdf] j],
          some (.calledProcessError
            [strOf "7z", strOf "a", pathJoin outputDir (stemOf pdf ++ strOf ".7z"), pdf] j))) := by
  by_cases hj : j = 0
  · subst hj
    simp [generate_cmd, hplan, hex, harch, h7z]
  · simp [generate_cmd, hplan, hex, harch, h7z, hj]

theorem takeWhile_append_stop {α : Type} (p : α → Bool) :
    ∀ (a : List α) (x : α) (r : List α), (∀ c ∈ a, p c = true) → p x = false →
      List.takeWhile p (a ++ x :: r) = a := by
  intro a
  induction a with
  | nil =>
    intro x r _ hx
    simp [List.takeWhile_cons, hx]
  | cons c a' ih =>
    intro x r ha hx
    have hc : p c = true := ha c (List.mem_cons_self c a')
    simp only [List.cons_append, List.takeWhile_cons, hc, if_true]
    rw [ih x r (fun d hd => ha d (List.mem_cons_of_mem c hd)) hx]

/-- The basename of `d / n` is `n` when the file name has no slash. -/
theorem pathName_pathJoin (d n : Str) (h : '/' ∉ n) : pathName (pathJoin d n) = n := by
  unfold pathName pathJoin
  rw [List.reverse_append, List.reverse_cons, List.append_assoc, List.singleton_append,
    takeWhile_append_stop _ n.reverse '/' d.reverse
      (fun c hc => by
        simp only [Bool.not_eq_true', decide_eq_false_iff_not]
        intro hcc
        exact h (hcc ▸ List.mem_reverse.1 hc))
      (by simp),
    List.reverse_reverse]

/-- The CLI sub-command and its parsed arguments. -/
inductive CliCmd where
  | initCmd (templatePath outputDir : Str)
  | generateCmd (inputPath outputDir : Str)

/-- The environment a run executes in: what is on disk and how the
external world behaves. -/
structure World where
  configExists : Bool
  config : Config
  templateExists : Bool
  templateContent : Str
  today : Str
  ex : List Str → Option Nat
  readBytes : Str → Str
  md5hex : Str → Str

/-- Entry point `main` (lines 104-146): config load followed by dispatch. -/
def mainRun (w : World) (configPath : Str) (c : CliCmd) : List Event × Option Abort :=
  match load_config configPath w.configExists w.config with
  | (ev, .error a) => (ev, some a)
  | (ev, .ok cfg) =>
    match c with
    | .initCmd tp out =>
      let r := init_cmd tp w.templateExists w.templateContent out cfg w.today
      (ev ++ r.1, r.2)
    | .generateCmd inp out =>
      let r := generate_cmd inp out cfg w.ex w.readBytes w.md5hex
      (ev ++ r.1, r.2)

/-- The trace of a successful `init` run: directory creation, copy,
rewrite of the copy, and the two confirmation prints. -/
theorem init_cmd_ok (tp tmpl out today : Str) (cfg : Config) (md : MetaSection)
    (hmd : cfg.metadata = some md) :
    init_cmd tp true tmpl out cfg today =
      ([.mkdirParents out, .copyFile tp (pathJoin out (pathName tp)),
        .writeFile (pathJoin out (pathName tp))
          (replaceMetadataText (md.title.getD []) (md.author.getD []) today tmpl),
        .print (strOf "[+] Template copied to " ++ pathJoin out (pathName tp)),
        .print (strOf "[+] Edit the Markdown file, then run `generate`")], none) := by
  simp [init_cmd, replace_metadata, hmd]

/-! ## The claims -/

/-- C2: the metadata replacement rewrites only text matching the literal
empty-quoted patterns `title: ""`, `author: ""`, `date: ""`; a template
line containing none of these exact patterns is left untouched (it is
fixed by the substitution and reappears verbatim among the output lines),
silently and without error.  The replacement values quantify over every
config: `title` and `author` range over all strings, covering both
configured and defaulted values. -/
theorem C2_only_literal_placeholders_rewritten (title author today text : Str) (line : Str)
    (hmem : line ∈ splitLines text)
    (h1 : containsSub (placeholderPat titleKey) line = false)
    (h2 : containsSub (placeholderPat authorKey) line = false)
    (h3 : containsSub (placeholderPat dateKey) line = false) :
    replaceMetadataText title author today line = line ∧
    line ∈ splitLines (replaceMetadataText title author today text) := by
  exact ⟨replaceMetadataText_pattern_free title author today h1 h2 h3,
    mem_splitLines_replaceMetadataText title author today text hmem h1 h2 h3⟩

theorem C2_witness :
    (strOf "# Report" ∈ splitLines (strOf "# Report\ntitle: \"Already set\"\nbody") ∧
      containsSub (placeholderPat titleKey) (strOf "# Report") = false ∧
      containsSub (placeholderPat authorKey) (strOf "# Report") = false ∧
      containsSub (placeholderPat dateKey) (strOf "# Report") = false) ∧
    (replaceMetadataText (strOf "T") (strOf "A") (strOf "2026-10-12") (strOf "# Report")
        = strOf "# Report" ∧
      strOf "# Report" ∈ splitLines (replaceMetadataText (strOf "T") (strOf "A")
        (strOf "2026-10-12") (strOf "# Report\ntitle: \"Already set\"\nbody"))) :=
  ⟨by decide,
    C2_only_literal_placeholders_rewritten (strOf "T") (strOf "A") (strOf "2026-10-12")
      (strOf "# Report\ntitle: \"Already set\"\nbody") (strOf "# Report")
      (by decide) (by decide) (by decide) (by decide)⟩

/-- C3: a template containing none of the three placeholder patterns is
copied byte-identically: the content `init` writes into the copy in the
output directory is exactly the template content, and the run succeeds. -/
theorem C3_no_patterns_copied_unchanged (tp tmpl out today : Str) (cfg : Config)
    (md : MetaSection) (hmd : cfg.metadata = some md)
    (h1 : containsSub (placeholderPat titleKey) tmpl = false)
    (h2 : containsSub (placeholderPat authorKey) tmpl = false)
    (h3 : containsSub (placeholderPat dateKey) tmpl = false) :
    init_cmd tp true tmpl out cfg today =
      ([.mkdirParents out, .copyFile tp (pathJoin out (pathName tp)),
        .writeFile (pathJoin out (pathName tp)) tmpl,
        .print (strOf "[+] Template copied to " ++ pathJoin out (pathName tp)),
        .print (strOf "[+] Edit the Markdown file, then run `generate`")], none) := by
  rw [init_cmd_ok tp tmpl out today cfg md hmd,
    replaceMetadataText_pattern_free (md.title.getD []) (md.author.getD []) today h1 h2 h3]

theorem C3_witness :
    (containsSub (placeholderPat titleKey) (strOf "# Notes\nplain body") = false ∧
      containsSub (placeholderPat authorKey) (strOf "# Notes\nplain body") = false ∧
      containsSub (placeholderPat dateKey) (strOf "# Notes\nplain body") = false) ∧
    init_cmd (strOf "tpl/r.md") true (strOf "# Notes\nplain body") (strOf "out")
        { metadata := some { title := some (strOf "T"), author := some (strOf "A") },
          output := none, pandoc := none, paths := none } (strOf "2026-10-12") =
      ([.mkdirParents (strOf "out"), .copyFile (strOf "tpl/r.md") (strOf "out/r.md"),
        .writeFile (strOf "out/r.md") (strOf "# Notes\nplain body"),
        .print (strOf "[+] Template copied to out/r.md"),
        .print (strOf "[+] Edit the Markdown file, then run `generate`")], none) :=
  ⟨by decide,
    by
      have h := C3_no_patterns_copied_unchanged (strOf "tpl/r.md")
        (strOf "# Notes\nplain body") (strOf "out") (strOf "2026-10-12")
        { metadata := some { title := some (strOf "T"), author := some (strOf "A") },
          output := none, pandoc := none, paths := none }
        { title := some (strOf "T"), author := some (strOf "A") }
        rfl (by decide) (by decide) (by decide)
      simpa using h⟩

/-- C9: when the `metadata` section is present but lacks the `title`
key (or the `author` key), `init` does not fail: the missing value
defaults to the empty string via `.get`, the written replacement for
that key equals the placeholder pattern itself, that replacement step
is the identity on any text (the placeholder line is rewritten to
itself), and the written copy is the template with only the remaining
substitution steps applied. -/
theorem C9_missing_title_or_author_defaults_to_empty (tp tmpl out today : Str) (cfg : Config)
    (md : MetaSection) (hmd : cfg.metadata = some md) :
    (init_cmd tp true tmpl out cfg today).2 = none ∧
    (md.title = none →
      placeholderVal titleKey (md.title.getD []) = placeholderPat titleKey ∧
      (∀ t : Str, replaceAll (placeholderPat titleKey)
        (placeholderVal titleKey (md.title.getD [])) t = t) ∧
      init_cmd tp true tmpl out cfg today =
        ([.mkdirParents out, .copyFile tp (pathJoin out (pathName tp)),
          .writeFile (pathJoin out (pathName tp))
            (replaceAll (placeholderPat dateKey) (placeholderVal dateKey today)
              (replaceAll (placeholderPat authorKey)
                (placeholderVal authorKey (md.author.getD [])) tmpl)),
          .print (strOf "[+] Template copied to " ++ pathJoin out (pathName tp)),
          .print (strOf "[+] Edit the Markdown file, then run `generate`")], none)) ∧
    (md.author = none →
      placeholderVal authorKey (md.author.getD []) = placeholderPat authorKey ∧
      (∀ t : Str, replaceAll (placeholderPat authorKey)
        (placeholderVal authorKey (md.author.getD [])) t = t) ∧
      init_cmd tp true tmpl out cfg today =
        ([.mkdirParents out, .copyFile tp (pathJoin out (pathName tp)),
          .writeFile (pathJoin out (pathName tp))
            (replaceAll (placeholderPat dateKey) (placeholderVal dateKey today)
              (replaceAll (placeholderPat titleKey)
                (placeholderVal titleKey (md.title.getD [])) tmpl)),
          .print (strOf "[+] Template copied to " ++ pathJoin out (pathName tp)),
          .print (strOf "[+] Edit the Markdown file, then run `generate`")], none)) := by
  refine ⟨by rw [init_cmd_ok tp tmpl out today cfg md hmd], ?_, ?_⟩
  · intro ht
    have hval : placeholderVal titleKey (md.title.getD []) = placeholderPat titleKey := by
      rw [ht]
      decide
    have hid : ∀ t : Str, replaceAll (placeholderPat titleKey)
        (placeholderVal titleKey (md.title.getD [])) t = t := by
      intro t
      rw [hval]
      exact replaceAll_self _ placeholderPat_titleKey_ne_nil t
    refine ⟨hval, hid, ?_⟩
    rw [init_cmd_ok tp tmpl out today cfg md hmd]
    unfold replaceMetadataText
    rw [hid tmpl]
  · intro ha
    have hval : placeholderVal authorKey (md.author.getD []) = placeholderPat authorKey := by
      rw [ha]
      decide
    have hid : ∀ t : Str, replaceAll (placeholderPat authorKey)
        (placeholderVal authorKey (md.author.getD [])) t = t := by
      intro t
      rw [hval]
      exact replaceAll_self _ placeholderPat_authorKey_ne_nil t
    refine ⟨hval, hid, ?_⟩
    rw [init_cmd_ok tp tmpl out today cfg md hmd]
    unfold replaceMetadataText
    rw [hid (replaceAll (placeholderPat titleKey)
      (placeholderVal titleKey (md.title.getD [])) tmpl)]

theorem C9_witness :
    (init_cmd (strOf "tpl/r.md") true (strOf "title: \"\"\nauthor: \"\"") (strOf "out")
        { metadata := some { title := none, author := none },
          output := none, pandoc := none, paths := none } (strOf "2026-10-12")).2 = none ∧
    placeholderVal titleKey ((none : Option Str).getD []) = placeholderPat titleKey ∧
    replaceAll (placeholderPat titleKey) (placeholderVal titleKey ((none : Option Str).getD []))
      (strOf "title: \"\"\nauthor: \"\"") = strOf "title: \"\"\nauthor: \"\"" ∧
    placeholderVal authorKey ((none : Option Str).getD []) = placeholderPat authorKey ∧
    replaceAll (placeholderPat authorKey) (placeholderVal authorKey ((none : Option Str).getD []))
      (strOf "title: \"\"\nauthor: \"\"") = strOf "title: \"\"\nauthor: \"\"" := by
  have h := C9_missing_title_or_author_defaults_to_empty (strOf "tpl/r.md")
    (strOf "title: \"\"\nauthor: \"\"") (strOf "out") (strOf "2026-10-12")
    { metadata := some { title := none, author := none },
      output := none, pandoc := none, paths := none }
    { title := none, author := none } rfl
  exact ⟨h.1, (h.2.1 rfl).1, (h.2.1 rfl).2.1 _, (h.2.2 rfl).1, (h.2.2 rfl).2.1 _⟩

/-- C1 counterexample: a template whose text contains the three
placeholder lines, with config title `T` and author `A`, on which `init`
nevertheless alters a fourth line.  The line `x title: "" y` is a line
of the template and is none of the three placeholder lines, yet it does
not survive unchanged into the copied file (Python `str.replace`
rewrites every occurrence of the pattern, not only whole-line
occurrences): the claim as stated is false at this input. -/
theorem C1_counterexample :
    (placeholderPat titleKey
        ∈ splitLines (strOf "title: \"\"\nx title: \"\" y\nauthor: \"\"\ndate: \"\"") ∧
      placeholderPat authorKey
        ∈ splitLines (strOf "title: \"\"\nx title: \"\" y\nauthor: \"\"\ndate: \"\"") ∧
      placeholderPat dateKey
        ∈ splitLines (strOf "title: \"\"\nx title: \"\" y\nauthor: \"\"\ndate: \"\"")) ∧
    init_cmd (strOf "tpl/r.md") true
        (strOf "title: \"\"\nx title: \"\" y\nauthor: \"\"\ndate: \"\"") (strOf "out")
        { metadata := some { title := some (strOf "T"), author := some (strOf "A") },
          output := none, pandoc := none, paths := none } (strOf "2026-10-12") =
      ([.mkdirParents (strOf "out"), .copyFile (strOf "tpl/r.md") (strOf "out/r.md"),
        .writeFile (strOf "out/r.md")
          (strOf "title: \"T\"\nx title: \"T\" y\nauthor: \"A\"\ndate: \"2026-10-12\""),
        .print (strOf "[+] Template copied to out/r.md"),
        .print (strOf "[+] Edit the Markdown file, then run `generate`")], none) ∧
    (strOf "x title: \"\" y"
        ∈ splitLines (strOf "title: \"\"\nx title: \"\" y\nauthor: \"\"\ndate: \"\"") ∧
      strOf "x title: \"\" y" ≠ placeholderPat titleKey ∧
      strOf "x title: \"\" y" ≠ placeholderPat authorKey ∧
      strOf "x title: \"\" y" ≠ placeholderPat dateKey ∧
      strOf "x title: \"\" y"
        ∉ splitLines (strOf "title: \"T\"\nx title: \"T\" y\nauthor: \"A\"\ndate: \"2026-10-12\"")) := by
  decide

/-- C1 amended: for a template whose text contains the three placeholder
lines and a config with `metadata.title = T` and `metadata.author = A`
(`T`, `A` and the date stamp newline-free, and the written replacement
lines not themselves containing a later placeholder pattern), the file
`init` writes is the template text with the three patterns substituted:
its lines include `title: "T"`, `author: "A"` and `date: "<today>"`, and
every line of the template not containing one of the three placeholder
patterns as a substring reappears unchanged. -/
theorem C1_init_stamps_metadata (tp tmpl out today T A : Str) (cfg : Config)
    (md : MetaSection) (hmd : cfg.metadata = some md)
    (hT : md.title = some T) (hA : md.author = some A)
    (hnT : '\n' ∉ T) (hnA : '\n' ∉ A) (hnD : '\n' ∉ today)
    (hv1 : containsSub (placeholderPat authorKey) (placeholderVal titleKey T) = false)
    (hv2 : containsSub (placeholderPat dateKey) (placeholderVal titleKey T) = false)
    (hv3 : containsSub (placeholderPat dateKey) (placeholderVal authorKey A) = false)
    (hl1 : placeholderPat titleKey ∈ splitLines tmpl)
    (hl2 : placeholderPat authorKey ∈ splitLines tmpl)
    (hl3 : placeholderPat dateKey ∈ splitLines tmpl) :
    init_cmd tp true tmpl out cfg today =
      ([.mkdirParents out, .copyFile tp (pathJoin out (pathName tp)),
        .writeFile (pathJoin out (pathName tp)) (replaceMetadataText T A today tmpl),
        .print (strOf "[+] Template copied to " ++ pathJoin out (pathName tp)),
        .print (strOf "[+] Edit the Markdown file, then run `generate`")], none) ∧
    placeholderVal titleKey T ∈ splitLines (replaceMetadataText T A today tmpl) ∧
    placeholderVal authorKey A ∈ splitLines (replaceMetadataText T A today tmpl) ∧
    placeholderVal dateKey today ∈ splitLines (replaceMetadataText T A today tmpl) ∧
    ∀ line ∈ splitLines tmpl,
      containsSub (placeholderPat titleKey) line = false →
      containsSub (placeholderPat authorKey) line = false →
      containsSub (placeholderPat dateKey) line = false →
      line ∈ splitLines (replaceMetadataText T A today tmpl) := by
  have h0 := init_cmd_ok tp tmpl out today cfg md hmd
  rw [hT, hA] at h0
  simp only [Option.getD_some] at h0
  refine ⟨h0, ?_, ?_, ?_, ?_⟩
  · rw [splitLines_replaceMetadataText]
    refine mem_concatMapL ?_ hl1
    rw [replaceMetadataText_title_line T A today hv1 hv2,
      splitLines_nl_free (nl_not_mem_placeholderVal (by decide) hnT)]
    exact List.mem_singleton_self _
  · rw [splitLines_replaceMetadataText]
    refine mem_concatMapL ?_ hl2
    rw [replaceMetadataText_author_line T A today hv3,
      splitLines_nl_free (nl_not_mem_placeholderVal (by decide) hnA)]
    exact List.mem_singleton_self _
  · rw [splitLines_replaceMetadataText]
    refine mem_concatMapL ?_ hl3
    rw [replaceMetadataText_date_line T A today,
      splitLines_nl_free (nl_not_mem_placeholderVal (by decide) hnD)]
    exact List.mem_singleton_self _
  · intro line hmem p1 p2 p3
    exact mem_splitLines_replaceMetadataText T A today tmpl hmem p1 p2 p3

theorem C1_witness :
    init_cmd (strOf "tpl/r.md") true (strOf "---\ntitle: \"\"\nauthor: \"\"\ndate: \"\"\n---\nbody")
        (strOf "out")
        { metadata := some { title := some (strOf "T"), author := some (strOf "A") },
          output := none, pandoc := none, paths := none } (strOf "2026-10-12") =
      ([.mkdirParents (strOf "out"), .copyFile (strOf "tpl/r.md")
          (pathJoin (strOf "out") (pathName (strOf "tpl/r.md"))),
        .writeFile (pathJoin (strOf "out") (pathName (strOf "tpl/r.md")))
          (replaceMetadataText (strOf "T") (strOf "A") (strOf "2026-10-12")
            (strOf "---\ntitle: \"\"\nauthor: \"\"\ndate: \"\"\n---\nbody")),
        .print (strOf "[+] Template copied to "
          ++ pathJoin (strOf "out") (pathName (strOf "tpl/r.md"))),
        .print (strOf "[+] Edit the Markdown file, then run `generate`")], none) ∧
    placeholderVal titleKey (strOf "T") ∈ splitLines (replaceMetadataText (strOf "T")
      (strOf "A") (strOf "2026-10-12") (strOf "---\ntitle: \"\"\nauthor: \"\"\ndate: \"\"\n---\nbody")) ∧
    placeholderVal authorKey (strOf "A") ∈ splitLines (replaceMetadataText (strOf "T")
      (strOf "A") (strOf "2026-10-12") (strOf "---\ntitle: \"\"\nauthor: \"\"\ndate: \"\"\n---\nbody")) ∧
    placeholderVal dateKey (strOf "2026-10-12") ∈ splitLines (replaceMetadataText (strOf "T")
      (strOf "A") (strOf "2026-10-12") (strOf "---\ntitle: \"\"\nauthor: \"\"\ndate: \"\"\n---\nbody")) ∧
    ∀ line ∈ splitLines (strOf "---\ntitle: \"\"\nauthor: \"\"\ndate: \"\"\n---\nbody"),
      containsSub (placeholderPat titleKey) line = false →
      containsSub (placeholderPat authorKey) line = false →
      containsSub (placeholderPat dateKey) line = false →
      line ∈ splitLines (replaceMetadataText (strOf "T") (strOf "A") (strOf "2026-10-12")
        (strOf "---\ntitle: \"\"\nauthor: \"\"\ndate: \"\"\n---\nbody")) :=
  C1_init_stamps_metadata (strOf "tpl/r.md")
    (strOf "---\ntitle: \"\"\nauthor: \"\"\ndate: \"\"\n---\nbody") (strOf "out")
    (strOf "2026-10-12") (strOf "T") (strOf "A")
    { metadata := some { title := some (strOf "T"), author := some (strOf "A") },
      output := none, pandoc := none, paths := none }
    { title := some (strOf "T"), author := some (strOf "A") }
    rfl rfl rfl (by decide) (by decide) (by decide) (by decide) (by decide) (by decide)
    (by decide) (by decide) (by decide)

/-- A fully-populated sample configuration used to instantiate the
universally quantified theorems at concrete inputs. -/
def sampleConfig : Config :=
  { metadata := some { title := some (strOf "T"), author := some (strOf "A") }
    output := some { pdf_name := some (strOf "report.pdf"), archive := some true }
    pandoc := some { template := some (strOf "eisvogel"), highlight_style := some (strOf "kate")
                     top_level_division := some (strOf "section"), toc := none
                     toc_depth := none, number_sections := none }
    paths := some { resource_path := some (strOf ".") } }

/-- The `output` section of `sampleConfig`. -/
def sampleOutput : OutputSection := { pdf_name := some (strOf "report.pdf"), archive := some true }

/-- The converter command line `generate` assembles for `sampleConfig`
with input `r.md` and output directory `out`. -/
def samplePandocCmd : List Str :=
  [strOf "pandoc", strOf "r.md", strOf "-o", strOf "out/report.pdf",
    strOf "--from", strOf "markdown+yaml_metadata_block+raw_html",
    strOf "--template", strOf "eisvogel",
    strOf "--highlight-style", strOf "kate",
    strOf "--resource-path", strOf ".",
    strOf "--top-level-division", strOf "section"]

/-- C4: when the config file does not exist, both commands consist of a
single not-found message and `sys.exit(1)`: a non-zero exit and no
file-system mutation of any kind (in particular nothing is created in
the output directory). -/
theorem C4_missing_config_fails_fast (w : World) (p : Str) (c : CliCmd)
    (h : w.configExists = false) :
    mainRun w p c =
      ([.print (strOf "[!] Config file not found: " ++ p)], some (.sysExit 1)) ∧
    Abort.exitCode (.sysExit 1) ≠ 0 ∧
    ∀ e ∈ (mainRun w p c).1, e.isFsWrite = false := by
  have heq : mainRun w p c =
      ([.print (strOf "[!] Config file not found: " ++ p)], some (.sysExit 1)) := by
    simp [mainRun, load_config, h]
  refine ⟨heq, by simp [Abort.exitCode], ?_⟩
  rw [heq]
  intro e he
  simp only [List.mem_singleton] at he
  simp [he, Event.isFsWrite]

theorem C4_witness :
    mainRun
        { configExists := false, config := sampleConfig, templateExists := true,
          templateContent := [], today := [], ex := fun _ => some 0,
          readBytes := fun _ => [], md5hex := fun _ => [] }
        (strOf "config.yml") (.initCmd (strOf "t.md") (strOf "out")) =
      ([.print (strOf "[!] Config file not found: " ++ strOf "config.yml")],
        some (.sysExit 1)) ∧
    Abort.exitCode (.sysExit 1) ≠ 0 ∧
    ∀ e ∈ (mainRun
        { configExists := false, config := sampleConfig, templateExists := true,
          templateContent := [], today := [], ex := fun _ => some 0,
          readBytes := fun _ => [], md5hex := fun _ => [] }
        (strOf "config.yml") (.initCmd (strOf "t.md") (strOf "out"))).1,
      e.isFsWrite = false :=
  C4_missing_config_fails_fast
    { configExists := false, config := sampleConfig, templateExists := true,
      templateContent := [], today := [], ex := fun _ => some 0,
      readBytes := fun _ => [], md5hex := fun _ => [] }
    (strOf "config.yml") (.initCmd (strOf "t.md") (strOf "out")) rfl

/-- C5: when the converter process exits non-zero, `check=True` raises
`CalledProcessError` and the run aborts with a non-zero process exit:
the trace stops at the single converter invocation (no retry), the
archiver is never invoked, and neither an archive path nor an MD5
checksum line is printed. -/
theorem C5_converter_failure_propagates (inp out : Str) (cfg : Config)
    (ex : List Str → Option Nat) (rb mh : Str → Str) (cmd : List Str) (pdf : Str)
    (o : OutputSection) (hplan : pandocPlan inp out cfg = .ok (cmd, pdf, o))
    (k : Nat) (hex : ex cmd = some k) (hnz : k ≠ 0) :
    generate_cmd inp out cfg ex rb mh =
      ([.mkdirParents out, .print (strOf "[+] Generating PDF..."), .execProc cmd k],
        some (.calledProcessError cmd k)) ∧
    Abort.exitCode (.calledProcessError cmd k) ≠ 0 ∧
    execsOf (generate_cmd inp out cfg ex rb mh).1 = [cmd] ∧
    hasPrintPre (strOf "[+] MD5: ") (generate_cmd inp out cfg ex rb mh).1 = false ∧
    hasPrintPre (strOf "[+] Archive: ") (generate_cmd inp out cfg ex rb mh).1 = false := by
  have heq := generate_cmd_converter_fails inp out cfg ex rb mh cmd pdf o hplan k hex hnz
  refine ⟨heq, by simp [Abort.exitCode], ?_, ?_, ?_⟩
  · rw [heq]; rfl
  · rw [heq]; rfl
  · rw [heq]; rfl

theorem C5_witness :
    generate_cmd (strOf "r.md") (strOf "out") sampleConfig (fun _ => some 1)
        (fun _ => []) (fun _ => []) =
      ([.mkdirParents (strOf "out"), .print (strOf "[+] Generating PDF..."),
        .execProc samplePandocCmd 1], some (.calledProcessError samplePandocCmd 1)) ∧
    Abort.exitCode (.calledProcessError samplePandocCmd 1) ≠ 0 ∧
    execsOf (generate_cmd (strOf "r.md") (strOf "out") sampleConfig (fun _ => some 1)
      (fun _ => []) (fun _ => [])).1 = [samplePandocCmd] ∧
    hasPrintPre (strOf "[+] MD5: ") (generate_cmd (strOf "r.md") (strOf "out") sampleConfig
      (fun _ => some 1) (fun _ => []) (fun _ => [])).1 = false ∧
    hasPrintPre (strOf "[+] Archive: ") (generate_cmd (strOf "r.md") (strOf "out") sampleConfig
      (fun _ => some 1) (fun _ => []) (fun _ => [])).1 = false :=
  C5_converter_failure_propagates (strOf "r.md") (strOf "out") sampleConfig
    (fun _ => some 1) (fun _ => []) (fun _ => [])
    samplePandocCmd (strOf "out/report.pdf") sampleOutput rfl 1 rfl (by decide)

/-- C6: a successful plan passes exactly `<output_dir>/<pdf_name>` as the
`-o` argument (command words 3 and 4 are `-o` and that path), and when
the converter is unavailable (`FileNotFoundError`) or exits non-zero the
run aborts: no `PDF generated` line is printed and, in the unavailable
case, no external process ran at all. -/
theorem C6_converter_gets_output_path (inp out : Str) (cfg : Config) (o : OutputSection)
    (n : Str) (cmd : List Str) (pdf : Str)
    (hplan : pandocPlan inp out cfg = .ok (cmd, pdf, o)) (hn : o.pdf_name = some n) :
    pdf = pathJoin out n ∧
    cmd.take 4 = [strOf "pandoc", inp, strOf "-o", pathJoin out n] ∧
    (∀ ex rb mh, ex cmd = none →
      (generate_cmd inp out cfg ex rb mh).2 = some (.fileNotFound cmd) ∧
      hasPrintPre (strOf "[+] PDF generated: ") (generate_cmd inp out cfg ex rb mh).1 = false ∧
      execsOf (generate_cmd inp out cfg ex rb mh).1 = []) ∧
    (∀ ex rb mh k, ex cmd = some k → k ≠ 0 →
      (generate_cmd inp out cfg ex rb mh).2 = some (.calledProcessError cmd k) ∧
      Abort.exitCode (.calledProcessError cmd k) ≠ 0 ∧
      hasPrintPre (strOf "[+] PDF generated: ") (generate_cmd inp out cfg ex rb mh).1 = false) := by
  obtain ⟨ho, ⟨n', hn', hpdf⟩, htake⟩ := pandocPlan_shape inp out cfg cmd pdf o hplan
  rw [hn'] at hn
  obtain rfl : n' = n := by injection hn
  refine ⟨hpdf, hpdf ▸ htake, ?_, ?_⟩
  · intro ex rb mh hex
    have heq := generate_cmd_unavailable inp out cfg ex rb mh cmd pdf o hplan hex
    exact ⟨by rw [heq], by rw [heq]; rfl, by rw [heq]; rfl⟩
  · intro ex rb mh k hex hnz
    have heq := generate_cmd_converter_fails inp out cfg ex rb mh cmd pdf o hplan k hex hnz
    exact ⟨by rw [heq], by simp [Abort.exitCode], by rw [heq]; rfl⟩

theorem C6_witness :
    (strOf "out/report.pdf" : Str) = pathJoin (strOf "out") (strOf "report.pdf") ∧
    samplePandocCmd.take 4 =
      [strOf "pandoc", strOf "r.md", strOf "-o", pathJoin (strOf "out") (strOf "report.pdf")] ∧
    (generate_cmd (strOf "r.md") (strOf "out") sampleConfig (fun _ => none)
      (fun _ => []) (fun _ => [])).2 = some (.fileNotFound samplePandocCmd) ∧
    hasPrintPre (strOf "[+] PDF generated: ") (generate_cmd (strOf "r.md") (strOf "out")
      sampleConfig (fun _ => none) (fun _ => []) (fun _ => [])).1 = false ∧
    execsOf (generate_cmd (strOf "r.md") (strOf "out") sampleConfig (fun _ => none)
      (fun _ => []) (fun _ => [])).1 = [] := by
  have h := C6_converter_gets_output_path (strOf "r.md") (strOf "out") sampleConfig
    sampleOutput (strOf "report.pdf") samplePandocCmd (strOf "out/report.pdf") rfl rfl
  have h2 := h.2.2.1 (fun _ => none) (fun _ => []) (fun _ => []) rfl
  exact ⟨h.1, h.2.1, h2.1, h2.2.1, h2.2.2⟩

/-- An external world in which the converter succeeds but the archiver
exits non-zero. -/
def sampleExArchiverFails : List Str → Option Nat :=
  fun c => if c.headD [] = strOf "7z" then some 2 else some 0

/-- C7 counterexample: a run with `output.archive = true` in which the
converter succeeds and produces the PDF (exit 0, success line printed),
but the archiver exits non-zero: `generate` aborts on the archiver
invocation, no archive path and no MD5 digest are ever printed, so the
claim conditioned only on converter success is false at this input. -/
theorem C7_counterexample :
    sampleConfig.output = some sampleOutput ∧ sampleOutput.archive = some true ∧
    Event.execProc samplePandocCmd 0 ∈
      (generate_cmd (strOf "r.md") (strOf "out") sampleConfig sampleExArchiverFails
        (fun _ => []) (fun _ => [])).1 ∧
    Event.print (strOf "[+] PDF generated: out/report.pdf") ∈
      (generate_cmd (strOf "r.md") (strOf "out") sampleConfig sampleExArchiverFails
        (fun _ => []) (fun _ => [])).1 ∧
    (generate_cmd (strOf "r.md") (strOf "out") sampleConfig sampleExArchiverFails
        (fun _ => []) (fun _ => [])).2 =
      some (.calledProcessError
        [strOf "7z", strOf "a", strOf "out/report.7z", strOf "out/report.pdf"] 2) ∧
    hasPrintPre (strOf "[+] Archive: ") (generate_cmd (strOf "r.md") (strOf "out") sampleConfig
      sampleExArchiverFails (fun _ => []) (fun _ => [])).1 = false ∧
    hasPrintPre (strOf "[+] MD5: ") (generate_cmd (strOf "r.md") (strOf "out") sampleConfig
      sampleExArchiverFails (fun _ => []) (fun _ => [])).1 = false := by
  decide

/-- C7 amended: when `output.archive` is true, the converter succeeds,
and the archiver invocation also exits zero, `generate` completes
normally, invokes the archiver on the archive path, prints that archive
path, and prints an MD5 digest computed as the hash of the byte content
of that archive file (`md5sum` reads the archive path and hashes those
bytes). -/
theorem C7_archive_and_checksum (inp out : Str) (cfg : Config) (ex : List Str → Option Nat)
    (rb mh : Str → Str) (cmd : List Str) (pdf : Str) (o : OutputSection)
    (hplan : pandocPlan inp out cfg = .ok (cmd, pdf, o)) (hex : ex cmd = some 0)
    (harch : o.archive = some true)
    (h7z : ex [strOf "7z", strOf "a", pathJoin out (stemOf pdf ++ strOf ".7z"), pdf]
      = some 0) :
    (generate_cmd inp out cfg ex rb mh).2 = none ∧
    Event.execProc [strOf "7z", strOf "a", pathJoin out (stemOf pdf ++ strOf ".7z"), pdf] 0
      ∈ (generate_cmd inp out cfg ex rb mh).1 ∧
    Event.print (strOf "[+] Archive: " ++ pathJoin out (stemOf pdf ++ strOf ".7z"))
      ∈ (generate_cmd inp out cfg ex rb mh).1 ∧
    Event.print (strOf "[+] MD5: " ++ md5sum mh rb (pathJoin out (stemOf pdf ++ strOf ".7z")))
      ∈ (generate_cmd inp out cfg ex rb mh).1 := by
  have heq := generate_cmd_archive_run inp out cfg ex rb mh cmd pdf o hplan hex harch 0 h7z
  rw [if_pos rfl] at heq
  refine ⟨by rw [heq], ?_, ?_, ?_⟩ <;> rw [heq] <;> simp

theorem C7_witness :
    (generate_cmd (strOf "r.md") (strOf "out") sampleConfig (fun _ => some 0)
      (fun _ => strOf "archive bytes") (fun _ => strOf "9e107d9d372bb6826bd81d3542a419d6")).2
      = none ∧
    Event.execProc [strOf "7z", strOf "a",
        pathJoin (strOf "out") (stemOf (strOf "out/report.pdf") ++ strOf ".7z"),
        strOf "out/report.pdf"] 0
      ∈ (generate_cmd (strOf "r.md") (strOf "out") sampleConfig (fun _ => some 0)
        (fun _ => strOf "archive bytes") (fun _ => strOf "9e107d9d372bb6826bd81d3542a419d6")).1 ∧
    Event.print (strOf "[+] Archive: "
        ++ pathJoin (strOf "out") (stemOf (strOf "out/report.pdf") ++ strOf ".7z"))
      ∈ (generate_cmd (strOf "r.md") (strOf "out") sampleConfig (fun _ => some 0)
        (fun _ => strOf "archive bytes") (fun _ => strOf "9e107d9d372bb6826bd81d3542a419d6")).1 ∧
    Event.print (strOf "[+] MD5: "
        ++ md5sum (fun _ => strOf "9e107d9d372bb6826bd81d3542a419d6")
          (fun _ => strOf "archive bytes")
          (pathJoin (strOf "out") (stemOf (strOf "out/report.pdf") ++ strOf ".7z")))
      ∈ (generate_cmd (strOf "r.md") (strOf "out") sampleConfig (fun _ => some 0)
        (fun _ => strOf "archive bytes") (fun _ => strOf "9e107d9d372bb6826bd81d3542a419d6")).1 :=
  C7_archive_and_checksum (strOf "r.md") (strOf "out") sampleConfig (fun _ => some 0)
    (fun _ => strOf "archive bytes") (fun _ => strOf "9e107d9d372bb6826bd81d3542a419d6")
    samplePandocCmd (strOf "out/report.pdf") sampleOutput rfl rfl rfl rfl

/-- C8: the loader performs no schema validation (it accepts every
parsed config unchanged), and each key a command consumes by subscript
surfaces, when missing, as an uncaught `KeyError` abort inside that
command, with exit status 1 and no dedicated handling: `metadata` in
`init`; `output`, `pdf_name`, `pandoc`, `template`, `highlight_style`,
`paths`, `resource_path` and `top_level_division` in `generate`. -/
theorem C8_missing_keys_surface_as_lookup_failures (p tp inp out tmpl today : Str)
    (ex : List Str → Option Nat) (rb mh : Str → Str) :
    (∀ cfg : Config, load_config p true cfg = ([], .ok cfg)) ∧
    (∀ cfg : Config, cfg.metadata = none →
      (init_cmd tp true tmpl out cfg today).2 = some (.keyError metadataKey)) ∧
    (∀ cfg : Config, cfg.output = none →
      (generate_cmd inp out cfg ex rb mh).2 = some (.keyError outputKey)) ∧
    (∀ (cfg : Config) (o : OutputSection), cfg.output = some o → o.pdf_name = none →
      (generate_cmd inp out cfg ex rb mh).2 = some (.keyError pdfNameKey)) ∧
    (∀ (cfg : Config) (o : OutputSection) (n : Str), cfg.output = some o →
      o.pdf_name = some n → cfg.pandoc = none →
      (generate_cmd inp out cfg ex rb mh).2 = some (.keyError pandocKey)) ∧
    (∀ (cfg : Config) (o : OutputSection) (n : Str) (pc : PandocSection),
      cfg.output = some o → o.pdf_name = some n → cfg.pandoc = some pc →
      pc.template = none →
      (generate_cmd inp out cfg ex rb mh).2 = some (.keyError templateKey)) ∧
    (∀ (cfg : Config) (o : OutputSection) (n : Str) (pc : PandocSection) (t2 : Str),
      cfg.output = some o → o.pdf_name = some n → cfg.pandoc = some pc →
      pc.template = some t2 → pc.highlight_style = none →
      (generate_cmd inp out cfg ex rb mh).2 = some (.keyError highlightStyleKey)) ∧
    (∀ (cfg : Config) (o : OutputSection) (n : Str) (pc : PandocSection) (t2 hs : Str),
      cfg.output = some o → o.pdf_name = some n → cfg.pandoc = some pc →
      pc.template = some t2 → pc.highlight_style = some hs → cfg.paths = none →
      (generate_cmd inp out cfg ex rb mh).2 = some (.keyError pathsKey)) ∧
    (∀ (cfg : Config) (o : OutputSection) (n : Str) (pc : PandocSection) (t2 hs : Str)
      (pa : PathsSection),
      cfg.output = some o → o.pdf_name = some n → cfg.pandoc = some pc →
      pc.template = some t2 → pc.highlight_style = some hs → cfg.paths = some pa →
      pa.resource_path = none →
      (generate_cmd inp out cfg ex rb mh).2 = some (.keyError resourcePathKey)) ∧
    (∀ (cfg : Config) (o : OutputSection) (n : Str) (pc : PandocSection) (t2 hs : Str)
      (pa : PathsSection) (rp : Str),
      cfg.output = some o → o.pdf_name = some n → cfg.pandoc = some pc →
      pc.template = some t2 → pc.highlight_style = some hs → cfg.paths = some pa →
      pa.resource_path = some rp → pc.top_level_division = none →
      (generate_cmd inp out cfg ex rb mh).2 = some (.keyError topLevelDivisionKey)) ∧
    (∀ key : Str, Abort.exitCode (.keyError key) ≠ 0) := by
  refine ⟨fun cfg => rfl, ?_, ?_, ?_, ?_, ?_, ?_, ?_, ?_, ?_, fun key => by simp [Abort.exitCode]⟩
  · intro cfg h
    simp [init_cmd, replace_metadata, h]
  · intro cfg h
    simp [generate_cmd, pandocPlan, h]
  · intro cfg o h1 h2
    simp [generate_cmd, pandocPlan, h1, h2]
  · intro cfg o n h1 h2 h3
    simp [generate_cmd, pandocPlan, h1, h2, h3]
  · intro cfg o n pc h1 h2 h3 h4
    simp [generate_cmd, pandocPlan, h1, h2, h3, h4]
  · intro cfg o n pc t2 h1 h2 h3 h4 h5
    simp [generate_cmd, pandocPlan, h1, h2, h3, h4, h5]
  · intro cfg o n pc t2 hs h1 h2 h3 h4 h5 h6
    simp [generate_cmd, pandocPlan, h1, h2, h3, h4, h5, h6]
  · intro cfg o n pc t2 hs pa h1 h2 h3 h4 h5 h6 h7
    simp [generate_cmd, pandocPlan, h1, h2, h3, h4, h5, h6, h7]
  · intro cfg o n pc t2 hs pa rp h1 h2 h3 h4 h5 h6 h7 h8
    simp [generate_cmd, pandocPlan, h1, h2, h3, h4, h5, h6, h7, h8]

theorem C8_witness :
    (init_cmd (strOf "t.md") true (strOf "x") (strOf "out")
      { metadata := none, output := none, pandoc := none, paths := none }
      (strOf "2026-10-12")).2 = some (.keyError metadataKey) ∧
    (generate_cmd (strOf "r.md") (strOf "out")
      { metadata := none, output := none, pandoc := none, paths := none }
      (fun _ => some 0) (fun _ => []) (fun _ => [])).2 = some (.keyError outputKey) := by
  have h := C8_missing_keys_surface_as_lookup_failures (strOf "config.yml") (strOf "t.md")
    (strOf "r.md") (strOf "out") (strOf "x") (strOf "2026-10-12")
    (fun _ => some 0) (fun _ => []) (fun _ => [])
  exact ⟨h.2.1 _ rfl, h.2.2.1 _ rfl⟩

/-- C10: with `output.pdf_name = N` (a bare file name) and archiving on,
the archiver is invoked on an archive placed in the output directory and
named by the pdf stem (`N` without its final extension) plus `.7z`. -/
theorem C10_archive_named_after_pdf_stem (inp out n : Str) (cfg : Config)
    (ex : List Str → Option Nat) (rb mh : Str → Str) (cmd : List Str) (pdf : Str)
    (o : OutputSection) (hplan : pandocPlan inp out cfg = .ok (cmd, pdf, o))
    (hn : o.pdf_name = some n) (hslash : '/' ∉ n) (hex : ex cmd = some 0)
    (harch : o.archive = some true) (j : Nat)
    (h7z : ex [strOf "7z", strOf "a", pathJoin out (stemOf pdf ++ strOf ".7z"), pdf]
      = some j) :
    stemOf pdf = dropLastExt n ∧
    Event.execProc [strOf "7z", strOf "a", pathJoin out (dropLastExt n ++ strOf ".7z"),
      pathJoin out n] j ∈ (generate_cmd inp out cfg ex rb mh).1 := by
  obtain ⟨ho, ⟨n', hn', hpdf⟩, htake⟩ := pandocPlan_shape inp out cfg cmd pdf o hplan
  rw [hn'] at hn
  have heqn : n' = n := by injection hn
  rw [heqn] at hn' hpdf
  have hstem : stemOf pdf = dropLastExt n := by
    rw [hpdf]
    unfold stemOf
    rw [pathName_pathJoin out n hslash]
  refine ⟨hstem, ?_⟩
  have heq := generate_cmd_archive_run inp out cfg ex rb mh cmd pdf o hplan hex harch j h7z
  rw [hstem, hpdf] at heq
  rw [heq]
  by_cases hj : j = 0
  · subst hj
    rw [if_pos rfl]
    simp
  · rw [if_neg hj]
    simp

theorem C10_witness :
    stemOf (strOf "out/report.pdf") = dropLastExt (strOf "report.pdf") ∧
    Event.execProc [strOf "7z", strOf "a",
        pathJoin (strOf "out") (dropLastExt (strOf "report.pdf") ++ strOf ".7z"),
        pathJoin (strOf "out") (strOf "report.pdf")] 0
      ∈ (generate_cmd (strOf "r.md") (strOf "out") sampleConfig (fun _ => some 0)
        (fun _ => []) (fun _ => [])).1 :=
  C10_archive_named_after_pdf_stem (strOf "r.md") (strOf "out") (strOf "report.pdf")
    sampleConfig (fun _ => some 0) (fun _ => []) (fun _ => [])
    samplePandocCmd (strOf "out/report.pdf") sampleOutput
    rfl rfl (by decide) rfl rfl 0 rfl

end Reporter
